import Mathlib

/-!
Verification development for the lightchain repository.

Two components are modelled:

1. `BaseFaissAnn` (src/nltkp/modules/indices/faiss/base.py): a thin wrapper
   around a brute-force flat vector index with metrics L2 (squared Euclidean)
   and IP (inner product).  Python values passed to `_fit`/`query` are
   modelled by the inductive `PyObj` (an ndarray, a torch Tensor, or anything
   else); numeric entries are rationals.  A method that can raise is modelled
   as returning the post-call object state paired with an optional raised
   error (`_fit` mutates `self`, so exceptions after a field assignment leave
   the partial mutation behind — exactly as in Python), or an `Except` when
   the method never mutates the instance (`query`).

2. `BasePooling` (src/lightchain/models/encoder/sentence/pooling/base.py):
   a dispatcher that runs the configured pooling strategies over token
   embeddings.  The strategy registry `pooling_funcs` lives in `.func`,
   which is not part of the sources; it is modelled from the spec.
-/

/-- A numpy ndarray as used by the wrapper: either 1-D (a vector) or 2-D
(a matrix given by its rows).  Entries are rationals. -/
inductive NdArray where
  | vec (v : List ℚ)
  | mat (rows : List (List ℚ))
  deriving DecidableEq

/-- A Python value reaching `_fit`/`query`: a numpy ndarray, a torch Tensor
(carrying the same numeric payload), or any other object. -/
inductive PyObj where
  | ndarray (a : NdArray)
  | tensor (a : NdArray)
  | other
  deriving DecidableEq

/-- The kinds of exception the wrapper can raise. -/
inductive PyErr where
  | typeError
  | valueError
  | indexError
  deriving DecidableEq

/-- The metric of a faiss flat index: IndexFlatL2 or IndexFlatIP. -/
inductive IndexKind where
  | L2
  | IP
  deriving DecidableEq

/-- A faiss flat index: its metric, the dimension it was created with
(IndexFlatL2(d) / IndexFlatIP(d)), and the vectors added to it. -/
structure FaissIndex where
  kind : IndexKind
  dim : Nat
  vectors : List (List ℚ)
  deriving DecidableEq

/-- The instance state of `BaseFaissAnn`: the metric string chosen at
construction, and the `index` / `embeddings` attributes. -/
structure BaseFaissAnn where
  index_type : String
  index : Option FaissIndex
  embeddings : Option NdArray
  deriving DecidableEq

/-- `ndarray.ndim`. -/
def NdArray.ndim : NdArray → Nat
  | .vec _ => 1
  | .mat _ => 2

/-- `ndarray.shape[1]`: defined only for 2-D arrays; indexing `shape[1]` on a
1-D array raises IndexError, modelled by `none`. -/
def NdArray.shape1 : NdArray → Option Nat
  | .vec _ => none
  | .mat rows => some ((rows.headD []).length)

/-- `ndarray.reshape(1, -1)` as applied in `query`: a 1-D array becomes a
one-row matrix; a 2-D array is left as is (the source only reshapes when
`ndim == 1`). -/
def NdArray.reshape1 : NdArray → NdArray
  | .vec v => .mat [v]
  | .mat rows => .mat rows

/-- The rows of an array viewed as a batch of query vectors. -/
def NdArray.rows : NdArray → List (List ℚ)
  | .vec v => [v]
  | .mat rs => rs

/-- `isinstance(x, ndarray)`. -/
def PyObj.isNdarrayB : PyObj → Bool
  | .ndarray _ => true
  | _ => false

/-- `isinstance(x, Tensor)`. -/
def PyObj.isTensorB : PyObj → Bool
  | .tensor _ => true
  | _ => false

/-- Is `x` a 2-D ndarray? -/
def PyObj.isMatB : PyObj → Bool
  | .ndarray (.mat _) => true
  | _ => false

/-- `x.cpu().numpy()`: a Tensor detached to CPU and converted to an ndarray
with the same payload. -/
def tensorCpuNumpy : PyObj → PyObj
  | .tensor a => .ndarray a
  | x => x

/-- View a Python value as an ndarray when it is one. -/
def PyObj.asNdArray : PyObj → Option NdArray
  | .ndarray a => some a
  | _ => none

/-- Modelled from the spec: `BaseFaissAnn.__init__` calls
`super().__init__()` on `BaseAnn` (module `nltkp.modules.indices`, not under
the sources); per the spec's pre-fit state, the index handle and the
embedding matrix start out both unset, which the code's
`if self.index is None` state check reads as `None`. -/
def mkBaseFaissAnn (index_type : String) : BaseFaissAnn :=
  ⟨index_type, none, none⟩

/-- `BaseFaissAnn._fit(embeddings)`.  Mirrors the source order: the
`isinstance(embeddings, ndarray)` type check, then the assignment
`self.embeddings = embeddings`, then `d = embeddings.shape[1]` (IndexError on
a 1-D array), then the metric dispatch building IndexFlatL2/IndexFlatIP
(ValueError on any other metric string), then `self.index.add(embeddings)`.
Returns the post-call state together with the raised error, if any. -/
def BaseFaissAnn.fitRun (self : BaseFaissAnn) (embeddings : PyObj) :
    BaseFaissAnn × Option PyErr :=
  match embeddings.asNdArray with
  | none => (self, some .typeError)
  | some a =>
    let self1 : BaseFaissAnn := ⟨self.index_type, self.index, some a⟩
    match a.shape1 with
    | none => (self1, some .indexError)
    | some d =>
      if self.index_type = "L2" then
        (⟨self1.index_type, some ⟨.L2, d, a.rows⟩, self1.embeddings⟩, none)
      else if self.index_type = "IP" then
        (⟨self1.index_type, some ⟨.IP, d, a.rows⟩, self1.embeddings⟩, none)
      else (self1, some .valueError)

/-- Squared Euclidean distance, the score computed by IndexFlatL2. -/
def sqDist (u v : List ℚ) : ℚ :=
  (List.zipWith (fun a b => (a - b) * (a - b)) u v).sum

/-- Inner product, the score computed by IndexFlatIP. -/
def dotProduct (u v : List ℚ) : ℚ :=
  (List.zipWith (fun a b => a * b) u v).sum

/-- The score a flat index of the given kind assigns to a candidate. -/
def metricScore : IndexKind → List ℚ → List ℚ → ℚ
  | .L2, q, v => sqDist q v
  | .IP, q, v => dotProduct q v

/-- Ordering of (score, candidate-id) pairs by ascending score, the order in
which IndexFlatL2 reports results. -/
def byDist (a b : ℚ × Nat) : Prop := a.1 ≤ b.1

/-- Ordering of (score, candidate-id) pairs by descending score, the order in
which IndexFlatIP reports results (best inner product first). -/
def byScoreDesc (a b : ℚ × Nat) : Prop := b.1 ≤ a.1

instance : DecidableRel byDist :=
  fun a b => inferInstanceAs (Decidable (a.1 ≤ b.1))

instance : DecidableRel byScoreDesc :=
  fun a b => inferInstanceAs (Decidable (b.1 ≤ a.1))

instance : IsTotal (ℚ × Nat) byDist :=
  ⟨fun a b => le_total a.1 b.1⟩

instance : IsTrans (ℚ × Nat) byDist :=
  ⟨fun _ _ _ h1 h2 => le_trans h1 h2⟩

instance : IsTotal (ℚ × Nat) byScoreDesc :=
  ⟨fun a b => le_total b.1 a.1⟩

instance : IsTrans (ℚ × Nat) byScoreDesc :=
  ⟨fun _ _ _ h1 h2 => le_trans h2 h1⟩

/-- Exact brute-force search of a flat index for one query row (the
documented behaviour of the delegated faiss `Index.search`, restricted to
`k` at most the number of stored vectors): every stored vector is scored,
results are ranked best-to-worst — ascending squared distance for L2,
descending inner product for IP — and the first `k` (score, index) pairs are
returned as two parallel lists. -/
def faissSearchRow (idx : FaissIndex) (q : List ℚ) (k : Nat) :
    List ℚ × List Nat :=
  let scored : List (ℚ × Nat) :=
    idx.vectors.enum.map (fun p => (metricScore idx.kind q p.2, p.1))
  let sorted : List (ℚ × Nat) :=
    match idx.kind with
    | .L2 => List.insertionSort byDist scored
    | .IP => List.insertionSort byScoreDesc scored
  ((sorted.take k).map Prod.fst, (sorted.take k).map Prod.snd)

/-- `Index.search` over a batch of query rows: one (distances, indices) row
per query, collected into two parallel matrices. -/
def faissSearch (idx : FaissIndex) (qrows : List (List ℚ)) (k : Nat) :
    List (List ℚ) × List (List Nat) :=
  (qrows.map (fun q => (faissSearchRow idx q k).1),
   qrows.map (fun q => (faissSearchRow idx q k).2))

/-- `BaseFaissAnn.query(embedding, n_neighbors)`.  Mirrors the source order:
the `if self.index is None` state check (ValueError), then the
`isinstance(embedding, ndarray)` check (TypeError), then the
`isinstance(embedding, Tensor)` conversion — unreachable at that point, since
the embedding is already known to be an ndarray — then the `ndim == 1`
reshape, then the delegated `self.index.search`. -/
def BaseFaissAnn.query (self : BaseFaissAnn) (embedding : PyObj)
    (n_neighbors : Nat) : Except PyErr (List (List ℚ) × List (List Nat)) :=
  match self.index with
  | none => .error .valueError
  | some idx =>
    if embedding.isNdarrayB = false then .error .typeError
    else
      let embedding2 := if embedding.isTensorB then tensorCpuNumpy embedding
        else embedding
      match embedding2.asNdArray with
      | some a =>
        let a2 := if a.ndim = 1 then a.reshape1 else a
        .ok (faissSearch idx a2.rows n_neighbors)
      | none => .error .typeError

/-- Did `query` succeed? -/
def queryOk (self : BaseFaissAnn) (embedding : PyObj) (n : Nat) : Bool :=
  match self.query embedding n with
  | .ok _ => true
  | .error _ => false

/-- The distance matrix returned by a successful `query` (junk on error). -/
def queryDists (self : BaseFaissAnn) (embedding : PyObj) (n : Nat) :
    List (List ℚ) :=
  match self.query embedding n with
  | .ok p => p.1
  | .error _ => []

/-- The index matrix returned by a successful `query` (junk on error). -/
def queryInds (self : BaseFaissAnn) (embedding : PyObj) (n : Nat) :
    List (List Nat) :=
  match self.query embedding n with
  | .ok p => p.2
  | .error _ => []

/-- The wrapper state after constructing with metric `t` and fitting the
matrix `rows`. -/
def fittedState (t : String) (rows : List (List ℚ)) : BaseFaissAnn :=
  ((mkBaseFaissAnn t).fitRun (.ndarray (.mat rows))).1

/-- The spec's state invariant: index handle and embedding matrix both unset,
or both set consistently (the index was built from exactly the stored
embedding matrix). -/
def annInv (st : BaseFaissAnn) : Prop :=
  (st.index = none ∧ st.embeddings = none) ∨
  (∃ kind rows, st.index = some ⟨kind, (rows.headD []).length, rows⟩ ∧
    st.embeddings = some (.mat rows))

/-- One call in a fit/query call sequence against a wrapper instance. -/
inductive AnnOp where
  | fitOp (x : PyObj)
  | queryOp (x : PyObj) (k : Nat)
  deriving DecidableEq

/-- The instance state after one call (raising or not): `_fit` leaves its
post-call state, `query` never assigns an instance attribute. -/
def runOp (st : BaseFaissAnn) : AnnOp → BaseFaissAnn
  | .fitOp x => (st.fitRun x).1
  | .queryOp _ _ => st

/-- The instance state after a sequence of calls. -/
def runOps (st : BaseFaissAnn) (ops : List AnnOp) : BaseFaissAnn :=
  ops.foldl runOp st

/-- A call that cannot leave a half-fitted state on a wrapper with metric
string `t`: any query, a fit whose argument fails the type check (rejected
before any mutation), or a fit of a 2-D ndarray under a valid metric. -/
def opCleanB (t : String) : AnnOp → Bool
  | .fitOp x => (!x.isNdarrayB) || (x.isMatB && (t == "L2" || t == "IP"))
  | .queryOp _ _ => true

/-- The per-call features handed to the pooling functions: the batch of
token embeddings (one row per token) and the attention mask (true on valid
tokens, false on padding).  In the source both travel inside the `features`
dictionary given to `apply_pooling`. -/
structure Features where
  tokenEmbeddings : List (List ℚ)
  attentionMask : List Bool
  deriving DecidableEq

/-- A vector of the same width as the first token row, with every entry `c`. -/
def constLike (f : Features) (c : ℚ) : List ℚ :=
  (f.tokenEmbeddings.headD []).map (fun _ => c)

/-- Element-wise fold of a binary operation over a list of rows. -/
def elemFold (op : ℚ → ℚ → ℚ) (rows : List (List ℚ)) (init0 : List ℚ) :
    List ℚ :=
  rows.foldl (fun acc r => List.zipWith op acc r) init0

/-- Token rows with every padding row replaced by the constant `c`. -/
def maskedRows (f : Features) (c : ℚ) : List (List ℚ) :=
  List.zipWith (fun (m : Bool) (row : List ℚ) =>
    if m then row else row.map (fun _ => c))
    f.attentionMask f.tokenEmbeddings

/-- The number of valid (non-padding) tokens. -/
def validCount (f : Features) : Nat :=
  (f.attentionMask.filter (fun m => m)).length

/-- Element-wise sum of the valid token embeddings. -/
def sumValid (f : Features) : List ℚ :=
  elemFold (fun a b => a + b) (maskedRows f 0) (constLike f 0)

/-- Modelled from the spec (strategy registry `.func`, not under the
sources): CLS pooling returns the first token's embedding unchanged. -/
def clsVec (f : Features) : List ℚ :=
  f.tokenEmbeddings.headD []

/-- The very negative sentinel masking padding positions before the max. -/
def maxSentinel : ℚ := -(1000000000 : ℚ)

/-- Modelled from the spec (strategy registry `.func`, not under the
sources): max pooling returns the element-wise maximum over valid tokens,
padding positions being excluded by a very negative sentinel. -/
def maxVec (f : Features) : List ℚ :=
  elemFold (fun a b => max a b) (maskedRows f maxSentinel)
    (constLike f maxSentinel)

/-- Modelled from the spec (strategy registry `.func`, not under the
sources): mean pooling divides the sum of valid token embeddings by the
number of valid tokens, the denominator floored at 1. -/
def meanVec (f : Features) : List ℚ :=
  (sumValid f).map (fun x => x / ((max (validCount f) 1 : ℕ) : ℚ))

/-- Modelled from the spec (strategy registry `.func`, not under the
sources): mean-sqrt-length pooling divides the sum of valid token embeddings
by the square root of the valid-token count (same floor at 1).  The
square-root routine — floating-point in the source — is the parameter
`rsqrt`; no claim depends on its values. -/
def meanSqrtVec (rsqrt : ℚ → ℚ) (f : Features) : List ℚ :=
  (sumValid f).map (fun x => x / rsqrt ((max (validCount f) 1 : ℕ) : ℚ))

/-- Token rows scaled by their 1-based position, padding rows zeroed. -/
def weightedRows (f : Features) : List (List ℚ) :=
  List.zipWith (fun (p : Nat × Bool) (row : List ℚ) =>
    if p.2 then row.map (fun x => ((p.1 + 1 : ℕ) : ℚ) * x)
    else row.map (fun _ => 0))
    f.attentionMask.enum f.tokenEmbeddings

/-- The sum of the 1-based positions of the valid tokens. -/
def weightTotal (f : Features) : Nat :=
  ((f.attentionMask.enum.filter (fun p => p.2)).map (fun p => p.1 + 1)).sum

/-- Modelled from the spec (strategy registry `.func`, not under the
sources): weighted-mean pooling scales each token embedding by its 1-based
position before summing, then divides by the sum of positions over valid
tokens (floored at 1). -/
def weightedMeanVec (f : Features) : List ℚ :=
  (elemFold (fun a b => a + b) (weightedRows f) (constLike f 0)).map
    (fun x => x / ((max (weightTotal f) 1 : ℕ) : ℚ))

/-- Modelled from the spec: the ordered strategy registry `pooling_funcs` of
module `.func` (not under the sources), mapping each pooling-mode flag name
to its strategy, in registration order.  Each strategy computes one pooled
vector from the token embeddings and the mask in the features. -/
def pooling_funcs (rsqrt : ℚ → ℚ) : List (String × (Features → List ℚ)) :=
  [("pooling_mode_cls_token", clsVec),
   ("pooling_mode_max_tokens", maxVec),
   ("pooling_mode_mean_tokens", meanVec),
   ("pooling_mode_mean_sqrt_len_tokens", meanSqrtVec rsqrt),
   ("pooling_mode_weighted_mean_tokens", weightedMeanVec)]

/-- The instance state of `BasePooling`: the stored embedding dimension and
the list of activated pooling functions. -/
structure BasePooling where
  word_embedding_dimension : Int
  pooling_functions : List (Features → List ℚ)

/-- `BasePooling.__init__(word_embedding_dimension, **pooling_modes)`: the
dimension is stored, and the registry is walked in order, activating each
strategy whose flag is looked up as true (`pooling_modes.get(mode, False)`).
Any integer dimension is accepted. -/
def mkBasePooling (rsqrt : ℚ → ℚ) (word_embedding_dimension : Int)
    (pooling_modes : String → Bool) : BasePooling :=
  ⟨word_embedding_dimension,
   ((pooling_funcs rsqrt).filter (fun p => pooling_modes p.1)).map Prod.snd⟩

/-- `BasePooling.apply_pooling(output_vectors, features)`: each configured
pooling function appends its pooled vector to `output_vectors`, and the list
is returned. -/
def applyPooling (self : BasePooling) (output_vectors : List (List ℚ))
    (features : Features) : List (List ℚ) :=
  self.pooling_functions.foldl (fun out g => out ++ [g features])
    output_vectors

/-- Well-formed pooling input of width `n`: at least one token row, every row
of length `n`, and the mask aligned with the rows. -/
def wellFormed (f : Features) (n : Nat) : Prop :=
  f.tokenEmbeddings ≠ [] ∧ (∀ r ∈ f.tokenEmbeddings, r.length = n) ∧
    f.attentionMask.length = f.tokenEmbeddings.length

/-- The order-sensitive sortedness the spec requires of a returned distance
row: non-decreasing for metric "L2", non-increasing (best similarity first)
otherwise — i.e. for "IP". -/
def metricSorted (t : String) (d : List ℚ) : Prop :=
  if t = "L2" then List.Sorted (fun a b : ℚ => a ≤ b) d
  else List.Sorted (fun a b : ℚ => b ≤ a) d

lemma fitRun_mat_L2 (st : BaseFaissAnn) (rows : List (List ℚ))
    (h : st.index_type = "L2") :
    st.fitRun (.ndarray (.mat rows))
      = (⟨st.index_type, some ⟨.L2, (rows.headD []).length, rows⟩,
          some (.mat rows)⟩, none) := by
  simp [BaseFaissAnn.fitRun, PyObj.asNdArray, NdArray.shape1, NdArray.rows, h]

lemma fitRun_mat_IP (st : BaseFaissAnn) (rows : List (List ℚ))
    (h : st.index_type = "IP") :
    st.fitRun (.ndarray (.mat rows))
      = (⟨st.index_type, some ⟨.IP, (rows.headD []).length, rows⟩,
          some (.mat rows)⟩, none) := by
  simp [BaseFaissAnn.fitRun, PyObj.asNdArray, NdArray.shape1, NdArray.rows, h]

lemma fitRun_mat_bad_metric (st : BaseFaissAnn) (rows : List (List ℚ))
    (h1 : st.index_type ≠ "L2") (h2 : st.index_type ≠ "IP") :
    st.fitRun (.ndarray (.mat rows))
      = (⟨st.index_type, st.index, some (.mat rows)⟩, some .valueError) := by
  simp [BaseFaissAnn.fitRun, PyObj.asNdArray, NdArray.shape1, h1, h2]

lemma runOp_preserves (t : String) (st : BaseFaissAnn) (op : AnnOp)
    (ht : st.index_type = t) (hop : opCleanB t op = true) (hinv : annInv st) :
    (runOp st op).index_type = t ∧ annInv (runOp st op) := by
  cases op with
  | queryOp x k => exact ⟨ht, hinv⟩
  | fitOp x =>
    cases x with
    | tensor a => exact ⟨ht, hinv⟩
    | other => exact ⟨ht, hinv⟩
    | ndarray a =>
      cases a with
      | vec v => simp [opCleanB, PyObj.isNdarrayB, PyObj.isMatB] at hop
      | mat rows =>
        simp only [opCleanB, PyObj.isNdarrayB, PyObj.isMatB, Bool.not_true,
          Bool.false_or, Bool.true_and, Bool.or_eq_true, beq_iff_eq] at hop
        rcases hop with h | h
        · have hL : st.index_type = "L2" := ht.trans h
          refine ⟨?_, Or.inr ⟨.L2, rows, ?_, ?_⟩⟩ <;>
            simp [runOp, fitRun_mat_L2 st rows hL, ht]
        · have hI : st.index_type = "IP" := ht.trans h
          refine ⟨?_, Or.inr ⟨.IP, rows, ?_, ?_⟩⟩ <;>
            simp [runOp, fitRun_mat_IP st rows hI, ht]

lemma runOps_preserves (t : String) :
    ∀ (ops : List AnnOp) (st : BaseFaissAnn), st.index_type = t →
      annInv st → (∀ op ∈ ops, opCleanB t op = true) →
      annInv (runOps st ops) ∧ (runOps st ops).index_type = t := by
  intro ops
  induction ops with
  | nil => intro st h1 h2 _; exact ⟨h2, h1⟩
  | cons op ops ih =>
    intro st h1 h2 hops
    have step := runOp_preserves t st op h1
      (hops op (List.mem_cons_self op ops)) h2
    have hrest := ih (runOp st op) step.1 step.2
      (fun o ho => hops o (List.mem_cons_of_mem _ ho))
    simpa [runOps, List.foldl_cons] using hrest

/-- Claim C1: on a wrapper on which fit has never been called, `query` raises
the state error — the ValueError reporting the unfit index — for every
input embedding and neighbor count, and no other kind of error. -/
theorem c1_query_before_fit_state_error (t : String) (emb : PyObj) (k : Nat) :
    (mkBaseFaissAnn t).query emb k = .error .valueError := rfl

/-- Claim C2 (code bug, evaluated at the failing input): on a fitted wrapper,
a Tensor query input is rejected with the TypeError, because the
`isinstance(embedding, ndarray)` check precedes the Tensor conversion, which
is therefore unreachable dead code. -/
theorem c2_tensor_query_raises_type_error :
    (fittedState "L2" [[1, 2]]).query (.tensor (.vec [1, 2])) 1
      = .error .typeError := rfl

/-- Claim C3 (counterexample): a fit call with the invalid metric "COSINE"
raises the configuration ValueError after having already assigned the
embeddings attribute, leaving the embedding matrix set while the index
handle is still unset — the both-or-neither invariant is violated. -/
theorem c3_invariant_counterexample :
    ((mkBaseFaissAnn "COSINE").fitRun (.ndarray (.mat [[0]]))).2
        = some .valueError ∧
    ¬ annInv ((mkBaseFaissAnn "COSINE").fitRun (.ndarray (.mat [[0]]))).1 := by
  refine ⟨rfl, ?_⟩
  intro h
  rcases h with ⟨-, h2⟩ | ⟨kind, rows, h1, -⟩
  · have he : ((mkBaseFaissAnn "COSINE").fitRun
        (.ndarray (.mat [[0]]))).1.embeddings = some (.mat [[0]]) := rfl
    rw [he] at h2
    exact Option.noConfusion h2
  · have hi : ((mkBaseFaissAnn "COSINE").fitRun
        (.ndarray (.mat [[0]]))).1.index = none := rfl
    rw [hi] at h1
    exact Option.noConfusion h1

/-- Claim C3 (amended): the both-unset-or-both-set-consistently invariant
holds along every sequence of fit and query calls in which each fit argument
is either a non-array (rejected by the type check before any mutation) or a
2-D array fitted under a valid metric; a fit call that passes the type check
but then raises (invalid metric) leaves the embeddings matrix set with the
index handle unset, as the counterexample shows. -/
theorem c3_invariant_amended (t : String) (ops : List AnnOp)
    (hops : ∀ op ∈ ops, opCleanB t op = true) :
    annInv (runOps (mkBaseFaissAnn t) ops) :=
  (runOps_preserves t ops (mkBaseFaissAnn t) rfl (Or.inl ⟨rfl, rfl⟩) hops).1

theorem c3_invariant_amended_witness :
    (∀ op ∈ ([AnnOp.fitOp .other,
        AnnOp.fitOp (.ndarray (.mat [[1], [2]])),
        AnnOp.queryOp (.ndarray (.vec [1])) 1] : List AnnOp),
      opCleanB "L2" op = true) ∧
    annInv (runOps (mkBaseFaissAnn "L2")
      [AnnOp.fitOp .other, AnnOp.fitOp (.ndarray (.mat [[1], [2]])),
       AnnOp.queryOp (.ndarray (.vec [1])) 1]) :=
  ⟨by decide, c3_invariant_amended "L2" _ (by decide)⟩

/-- Claim C6: fit of a valid 2-D array raises the configuration ValueError
exactly when the metric string chosen at construction is neither "L2" nor
"IP"; under "L2" or "IP" no error is raised and the corresponding flat index
is built over the fitted rows. -/
theorem c6_fit_metric_dispatch (t : String) (rows : List (List ℚ)) :
    ((t ≠ "L2" ∧ t ≠ "IP") →
      ((mkBaseFaissAnn t).fitRun (.ndarray (.mat rows))).2
        = some .valueError) ∧
    (t = "L2" →
      ((mkBaseFaissAnn t).fitRun (.ndarray (.mat rows))).2 = none ∧
      ((mkBaseFaissAnn t).fitRun (.ndarray (.mat rows))).1.index
        = some ⟨.L2, (rows.headD []).length, rows⟩) ∧
    (t = "IP" →
      ((mkBaseFaissAnn t).fitRun (.ndarray (.mat rows))).2 = none ∧
      ((mkBaseFaissAnn t).fitRun (.ndarray (.mat rows))).1.index
        = some ⟨.IP, (rows.headD []).length, rows⟩) := by
  refine ⟨fun h => ?_, fun h => ?_, fun h => ?_⟩
  · rw [fitRun_mat_bad_metric (mkBaseFaissAnn t) rows h.1 h.2]
  · rw [fitRun_mat_L2 (mkBaseFaissAnn t) rows h]
    exact ⟨rfl, rfl⟩
  · rw [fitRun_mat_IP (mkBaseFaissAnn t) rows h]
    exact ⟨rfl, rfl⟩

theorem c6_witness :
    ((mkBaseFaissAnn "COSINE").fitRun (.ndarray (.mat [[0]]))).2
        = some .valueError ∧
    ((mkBaseFaissAnn "L2").fitRun (.ndarray (.mat [[0]]))).2 = none ∧
    ((mkBaseFaissAnn "IP").fitRun (.ndarray (.mat [[0]]))).1.index
        = some ⟨.IP, 1, [[0]]⟩ :=
  ⟨(c6_fit_metric_dispatch "COSINE" [[0]]).1 ⟨by decide, by decide⟩,
   ((c6_fit_metric_dispatch "L2" [[0]]).2.1 rfl).1,
   ((c6_fit_metric_dispatch "IP" [[0]]).2.2 rfl).2⟩

/-- Claim C7: fit raises the TypeError exactly on arguments that are not
ndarrays; on every ndarray argument the raised error, if any, is never the
TypeError. -/
theorem c7_fit_type_error_iff_not_ndarray (st : BaseFaissAnn) (x : PyObj) :
    (x.isNdarrayB = false → (st.fitRun x).2 = some .typeError) ∧
    (x.isNdarrayB = true → (st.fitRun x).2 ≠ some .typeError) := by
  constructor
  · intro h
    cases x with
    | ndarray a => simp [PyObj.isNdarrayB] at h
    | tensor a => rfl
    | other => rfl
  · intro h
    cases x with
    | tensor a => simp [PyObj.isNdarrayB] at h
    | other => simp [PyObj.isNdarrayB] at h
    | ndarray a =>
      cases a with
      | vec v =>
        simp [BaseFaissAnn.fitRun, PyObj.asNdArray, NdArray.shape1]
      | mat rows =>
        by_cases h2 : st.index_type = "L2"
        · rw [fitRun_mat_L2 st rows h2]
          simp
        · by_cases h3 : st.index_type = "IP"
          · rw [fitRun_mat_IP st rows h3]
            simp
          · rw [fitRun_mat_bad_metric st rows h2 h3]
            simp

theorem c7_witness :
    PyObj.other.isNdarrayB = false ∧
    ((mkBaseFaissAnn "L2").fitRun .other).2 = some .typeError ∧
    (PyObj.ndarray (.mat [[0]])).isNdarrayB = true ∧
    ((mkBaseFaissAnn "L2").fitRun (.ndarray (.mat [[0]]))).2
        ≠ some .typeError :=
  ⟨rfl, (c7_fit_type_error_iff_not_ndarray (mkBaseFaissAnn "L2") .other).1 rfl,
   rfl,
   (c7_fit_type_error_iff_not_ndarray (mkBaseFaissAnn "L2")
      (.ndarray (.mat [[0]]))).2 rfl⟩

/-- Claim C10: a fit call whose argument fails the ndarray type check raises
the TypeError and leaves the instance state completely unchanged — the type
check precedes every mutation. -/
theorem c10_fit_type_error_atomic (st : BaseFaissAnn) (x : PyObj)
    (h : x.isNdarrayB = false) :
    st.fitRun x = (st, some .typeError) := by
  cases x with
  | ndarray a => simp [PyObj.isNdarrayB] at h
  | tensor a => rfl
  | other => rfl

theorem c10_witness :
    (PyObj.tensor (.vec [1])).isNdarrayB = false ∧
    (mkBaseFaissAnn "IP").fitRun (.tensor (.vec [1]))
      = (mkBaseFaissAnn "IP", some .typeError) :=
  ⟨rfl, c10_fit_type_error_atomic (mkBaseFaissAnn "IP") (.tensor (.vec [1]))
    rfl⟩

lemma faissSearchRow_len (idx : FaissIndex) (q : List ℚ) (k : Nat)
    (h : k ≤ idx.vectors.length) :
    (faissSearchRow idx q k).1.length = k ∧
    (faissSearchRow idx q k).2.length = k := by
  obtain ⟨kind, dim, vectors⟩ := idx
  cases kind <;>
    simp [faissSearchRow, List.length_take, List.length_insertionSort,
      List.enum_length, min_eq_left h]

lemma faissSearchRow_sorted_L2 (idx : FaissIndex) (q : List ℚ) (k : Nat)
    (h : idx.kind = .L2) :
    List.Sorted (fun a b : ℚ => a ≤ b) (faissSearchRow idx q k).1 := by
  obtain ⟨kind, dim, vectors⟩ := idx
  cases h
  simp only [faissSearchRow]
  rw [List.Sorted, List.pairwise_map]
  exact List.Pairwise.sublist (List.take_sublist k _)
    (List.sorted_insertionSort byDist _)

lemma faissSearchRow_sorted_IP (idx : FaissIndex) (q : List ℚ) (k : Nat)
    (h : idx.kind = .IP) :
    List.Sorted (fun a b : ℚ => b ≤ a) (faissSearchRow idx q k).1 := by
  obtain ⟨kind, dim, vectors⟩ := idx
  cases h
  simp only [faissSearchRow]
  rw [List.Sorted, List.pairwise_map]
  exact List.Pairwise.sublist (List.take_sublist k _)
    (List.sorted_insertionSort byScoreDesc _)

lemma query_some_vec (st : BaseFaissAnn) (idx : FaissIndex) (q : List ℚ)
    (k : Nat) (h : st.index = some idx) :
    st.query (.ndarray (.vec q)) k
      = .ok ([(faissSearchRow idx q k).1], [(faissSearchRow idx q k).2]) := by
  simp [BaseFaissAnn.query, h, PyObj.isNdarrayB, PyObj.isTensorB,
    PyObj.asNdArray, NdArray.ndim, NdArray.reshape1, NdArray.rows,
    faissSearch, tensorCpuNumpy]

/-- Claim C4: after fitting N vectors of dimension D under metric "L2" or
"IP", a query with a single D-vector (auto-reshaped to a 1×D matrix) and
k ≤ N succeeds and returns two parallel result matrices of shape (1, k);
under "L2" the distance row is non-decreasing, under "IP" the similarity
row is non-increasing (best match first). -/
theorem c4_query_single_vector_shape_order (t : String)
    (rows : List (List ℚ)) (q : List ℚ) (k N D : Nat)
    (ht : t = "L2" ∨ t = "IP") (hN : rows.length = N) (hk : k ≤ N)
    (_hD : ∀ r ∈ rows, r.length = D) (_hq : q.length = D) :
    queryOk (fittedState t rows) (.ndarray (.vec q)) k = true ∧
    (queryDists (fittedState t rows) (.ndarray (.vec q)) k).length = 1 ∧
    (queryInds (fittedState t rows) (.ndarray (.vec q)) k).length = 1 ∧
    ((queryDists (fittedState t rows) (.ndarray (.vec q)) k).headD
        []).length = k ∧
    ((queryInds (fittedState t rows) (.ndarray (.vec q)) k).headD
        []).length = k ∧
    metricSorted t
      ((queryDists (fittedState t rows) (.ndarray (.vec q)) k).headD []) := by
  rcases ht with h | h <;> subst h
  · have hst : (fittedState "L2" rows).index
        = some ⟨.L2, (rows.headD []).length, rows⟩ := by
      rw [fittedState, fitRun_mat_L2 (mkBaseFaissAnn "L2") rows rfl]
    have hq2 := query_some_vec (fittedState "L2" rows)
      ⟨.L2, (rows.headD []).length, rows⟩ q k hst
    have hlen := faissSearchRow_len ⟨.L2, (rows.headD []).length, rows⟩ q k
      (by simpa [hN] using hk)
    refine ⟨?_, ?_, ?_, ?_, ?_, ?_⟩
    · simp [queryOk, hq2]
    · simp [queryDists, hq2]
    · simp [queryInds, hq2]
    · simpa [queryDists, hq2] using hlen.1
    · simpa [queryInds, hq2] using hlen.2
    · simpa [queryDists, hq2, metricSorted] using
        faissSearchRow_sorted_L2 ⟨.L2, (rows.headD []).length, rows⟩ q k rfl
  · have hst : (fittedState "IP" rows).index
        = some ⟨.IP, (rows.headD []).length, rows⟩ := by
      rw [fittedState, fitRun_mat_IP (mkBaseFaissAnn "IP") rows rfl]
    have hq2 := query_some_vec (fittedState "IP" rows)
      ⟨.IP, (rows.headD []).length, rows⟩ q k hst
    have hlen := faissSearchRow_len ⟨.IP, (rows.headD []).length, rows⟩ q k
      (by simpa [hN] using hk)
    refine ⟨?_, ?_, ?_, ?_, ?_, ?_⟩
    · simp [queryOk, hq2]
    · simp [queryDists, hq2]
    · simp [queryInds, hq2]
    · simpa [queryDists, hq2] using hlen.1
    · simpa [queryInds, hq2] using hlen.2
    · simpa [queryDists, hq2, metricSorted] using
        faissSearchRow_sorted_IP ⟨.IP, (rows.headD []).length, rows⟩ q k rfl

theorem c4_witness :
    queryOk (fittedState "L2" [[0], [3]]) (.ndarray (.vec [1])) 2 = true ∧
    ((queryDists (fittedState "L2" [[0], [3]]) (.ndarray (.vec [1])) 2).headD
        []).length = 2 ∧
    metricSorted "L2"
      ((queryDists (fittedState "L2" [[0], [3]])
        (.ndarray (.vec [1])) 2).headD []) :=
  ⟨(c4_query_single_vector_shape_order "L2" [[0], [3]] [1] 2 2 1 (Or.inl rfl)
      rfl (by decide) (by decide) rfl).1,
   (c4_query_single_vector_shape_order "L2" [[0], [3]] [1] 2 2 1 (Or.inl rfl)
      rfl (by decide) (by decide) rfl).2.2.2.1,
   (c4_query_single_vector_shape_order "L2" [[0], [3]] [1] 2 2 1 (Or.inl rfl)
      rfl (by decide) (by decide) rfl).2.2.2.2.2⟩

lemma foldl_append_pool (fs : List (Features → List ℚ))
    (out : List (List ℚ)) (f : Features) :
    fs.foldl (fun acc g => acc ++ [g f]) out
      = out ++ fs.map (fun g => g f) := by
  induction fs generalizing out with
  | nil => simp
  | cons g gs ih => simp [ih]

lemma applyPooling_eq (st : BasePooling) (out : List (List ℚ))
    (f : Features) :
    applyPooling st out f = out ++ st.pooling_functions.map (fun g => g f) :=
  foldl_append_pool st.pooling_functions out f

lemma headD_length (f : Features) (n : Nat) (h1 : f.tokenEmbeddings ≠ [])
    (h2 : ∀ r ∈ f.tokenEmbeddings, r.length = n) :
    (f.tokenEmbeddings.headD []).length = n := by
  cases hte : f.tokenEmbeddings with
  | nil => exact absurd hte h1
  | cons r rs =>
    have hr := h2 r (by rw [hte]; exact List.mem_cons_self r rs)
    simpa using hr

lemma constLike_length (f : Features) (c : ℚ) (n : Nat)
    (hf : wellFormed f n) : (constLike f c).length = n := by
  simp only [constLike, List.length_map]
  exact headD_length f n hf.1 hf.2.1

instance (f : Features) (n : Nat) : Decidable (wellFormed f n) := by
  unfold wellFormed
  infer_instance

lemma elemFold_length (op : ℚ → ℚ → ℚ) :
    ∀ (rows : List (List ℚ)) (init0 : List ℚ) (n : Nat),
      init0.length = n → (∀ r ∈ rows, r.length = n) →
      (elemFold op rows init0).length = n := by
  intro rows
  induction rows with
  | nil => intro init0 n h0 _; simpa [elemFold] using h0
  | cons r rs ih =>
    intro init0 n h0 h
    have hr : r.length = n := h r (List.mem_cons_self r rs)
    have hz : (List.zipWith op init0 r).length = n := by
      rw [List.length_zipWith, h0, hr, min_self]
    simpa [elemFold] using ih (List.zipWith op init0 r) n hz
      (fun r' hr' => h r' (List.mem_cons_of_mem _ hr'))

lemma zipWith_rows_length {β : Type} (g : β → List ℚ → List ℚ)
    (hg : ∀ b r, (g b r).length = r.length) :
    ∀ (ms : List β) (rows : List (List ℚ)) (n : Nat),
      (∀ r ∈ rows, r.length = n) →
      ∀ r ∈ List.zipWith g ms rows, r.length = n := by
  intro ms
  induction ms with
  | nil => intro rows n h r hr; simp at hr
  | cons m ms ih =>
    intro rows n h r hr
    cases rows with
    | nil => simp at hr
    | cons row rows2 =>
      rw [List.zipWith_cons_cons] at hr
      rcases List.mem_cons.mp hr with h1 | h1
      · rw [h1, hg]
        exact h row (List.mem_cons_self _ _)
      · exact ih rows2 n (fun r2 hr2 => h r2 (List.mem_cons_of_mem _ hr2))
          r h1

lemma maskedRows_length (f : Features) (c : ℚ) (n : Nat)
    (hf : wellFormed f n) : ∀ r ∈ maskedRows f c, r.length = n :=
  zipWith_rows_length
    (fun (m : Bool) (row : List ℚ) => if m then row else row.map (fun _ => c))
    (fun b r => by cases b <;> simp)
    f.attentionMask f.tokenEmbeddings n hf.2.1

lemma weightedRows_length (f : Features) (n : Nat) (hf : wellFormed f n) :
    ∀ r ∈ weightedRows f, r.length = n :=
  zipWith_rows_length
    (fun (p : Nat × Bool) (row : List ℚ) =>
      if p.2 then row.map (fun x => ((p.1 + 1 : ℕ) : ℚ) * x)
      else row.map (fun _ => 0))
    (fun b r => by rcases b with ⟨i, m⟩; cases m <;> simp)
    f.attentionMask.enum f.tokenEmbeddings n hf.2.1

lemma clsVec_length (f : Features) (n : Nat) (hf : wellFormed f n) :
    (clsVec f).length = n :=
  headD_length f n hf.1 hf.2.1

lemma maxVec_length (f : Features) (n : Nat) (hf : wellFormed f n) :
    (maxVec f).length = n :=
  elemFold_length _ _ _ n (constLike_length f maxSentinel n hf)
    (maskedRows_length f maxSentinel n hf)

lemma sumValid_length (f : Features) (n : Nat) (hf : wellFormed f n) :
    (sumValid f).length = n :=
  elemFold_length _ _ _ n (constLike_length f 0 n hf)
    (maskedRows_length f 0 n hf)

lemma meanVec_length (f : Features) (n : Nat) (hf : wellFormed f n) :
    (meanVec f).length = n := by
  simp [meanVec, sumValid_length f n hf]

lemma meanSqrtVec_length (rsqrt : ℚ → ℚ) (f : Features) (n : Nat)
    (hf : wellFormed f n) : (meanSqrtVec rsqrt f).length = n := by
  simp [meanSqrtVec, sumValid_length f n hf]

lemma weightedMeanVec_length (f : Features) (n : Nat) (hf : wellFormed f n) :
    (weightedMeanVec f).length = n := by
  simp [weightedMeanVec,
    elemFold_length _ _ _ n (constLike_length f 0 n hf)
      (weightedRows_length f n hf)]

lemma pooling_funcs_length (rsqrt : ℚ → ℚ)
    (p : String × (Features → List ℚ)) (hp : p ∈ pooling_funcs rsqrt)
    (f : Features) (n : Nat) (hf : wellFormed f n) : (p.2 f).length = n := by
  simp only [pooling_funcs, List.mem_cons, List.not_mem_nil, or_false] at hp
  rcases hp with h | h | h | h | h <;> subst h
  · exact clsVec_length f n hf
  · exact maxVec_length f n hf
  · exact meanVec_length f n hf
  · exact meanSqrtVec_length rsqrt f n hf
  · exact weightedMeanVec_length f n hf

/-- Claim C5: apply_pooling runs the active strategies in
strategy-registration order, appending for each exactly one pooled vector of
the configured embedding dimension to the output list (which it returns), so
the list grows by exactly the number of active strategies. -/
theorem c5_apply_appends_one_vector_per_strategy (rsqrt : ℚ → ℚ) (d : Int)
    (modes : String → Bool) (out : List (List ℚ)) (f : Features) (n : Nat)
    (hf : wellFormed f n) (hd : d = (n : Int)) :
    applyPooling (mkBasePooling rsqrt d modes) out f
        = out ++ (mkBasePooling rsqrt d modes).pooling_functions.map
            (fun g => g f) ∧
    (applyPooling (mkBasePooling rsqrt d modes) out f).length
        = out.length
            + (mkBasePooling rsqrt d modes).pooling_functions.length ∧
    ∀ v ∈ (mkBasePooling rsqrt d modes).pooling_functions.map
        (fun g => g f), (v.length : Int) = d := by
  refine ⟨applyPooling_eq _ _ _, ?_, ?_⟩
  · rw [applyPooling_eq]
    simp
  · intro v hv
    rw [List.mem_map] at hv
    obtain ⟨g, hg, hgv⟩ := hv
    simp only [mkBasePooling, List.mem_map] at hg
    obtain ⟨p, hp, hpg⟩ := hg
    have hp2 : p ∈ pooling_funcs rsqrt := List.mem_of_mem_filter hp
    rw [hd, ← hgv, ← hpg]
    exact_mod_cast pooling_funcs_length rsqrt p hp2 f n hf

theorem c5_witness :
    wellFormed ⟨[[1, 2], [3, 4]], [true, false]⟩ 2 ∧
    (applyPooling (mkBasePooling id 2 (fun _ => true)) []
        ⟨[[1, 2], [3, 4]], [true, false]⟩).length
      = List.length ([] : List (List ℚ))
          + (mkBasePooling id 2 (fun _ => true)).pooling_functions.length :=
  ⟨by decide,
   (c5_apply_appends_one_vector_per_strategy id 2 (fun _ => true) []
      ⟨[[1, 2], [3, 4]], [true, false]⟩ 2 (by decide) rfl).2.1⟩

/-- Claim C8: apply_pooling is pure apart from appending to the output list:
its result is the input list followed by a block of pooled vectors that is a
function of the configuration and the features alone (so the input list,
the token embeddings and the features are never mutated, and identical
inputs always produce the identical result). -/
theorem c8_apply_pooling_append_only (st : BasePooling)
    (out : List (List ℚ)) (f : Features) :
    applyPooling st out f
      = out ++ st.pooling_functions.map (fun g => g f) :=
  applyPooling_eq st out f

/-- Claim C9: the stored word_embedding_dimension — any integer, including
zero and negative values, is accepted at construction — is never read by
apply_pooling: two aggregators differing only in that dimension produce
identical output on identical inputs. -/
theorem c9_dimension_has_no_influence (rsqrt : ℚ → ℚ) (d1 d2 : Int)
    (modes : String → Bool) (out : List (List ℚ)) (f : Features) :
    applyPooling (mkBasePooling rsqrt d1 modes) out f
      = applyPooling (mkBasePooling rsqrt d2 modes) out f := rfl
